import Mathlib

/-!
Shallow embedding of `htmresearch/encoders/cio_encoder.py` (class `CioEncoder`)
and the pieces of its base class it calls, together with proofs about the
claims on its window builder, union aggregator, dimension handling, encoding
fallback chain, and comparator type checks.

Conventions:
* Python floats are modelled as `ℚ` (every quantity the code divides is a
  small integer ratio `len(bitmap) / n`).
* A cortipy call that may raise `UnsuccessfulEncodingError` is modelled as an
  `Option`-valued oracle field (`none` = the exception was raised).
* Python exceptions that escape to the caller are modelled with
  `Except PyError`.
* Bit-position sets handed to the window builder are modelled as `Finset ℕ`
  (the data model guarantees they are duplicate-free, and `numpy.union1d`
  produces deduplicated arrays); the token-union aggregation keeps raw
  `List ℕ` bitmaps because `collections.Counter` counts raw occurrences.
-/

/-- Python exceptions that can escape the modelled functions. -/
inductive PyError where
  | typeError
  | valueError
  deriving DecidableEq, Repr

/-- The `EncoderTypes` enum (`document`, `word`, anything else). -/
inductive FingerprintType where
  | document
  | word
  | other
  deriving DecidableEq, Repr

/-- The fingerprint dict produced/consumed by the encoder:
`{text, sparsity, df, height, width, score, fingerprint: {positions}, pos_types}`. -/
structure Encoding where
  text : String
  sparsity : ℚ
  df : ℚ
  height : ℕ
  width : ℕ
  score : ℚ
  positions : List ℕ
  pos_types : List String
  deriving DecidableEq, Repr

/-- The mutable fields of `CioEncoder` that the modelled methods read
(`retinaScaling`, `width`, `height`, `unionSparsity`, `fingerprintType`). -/
structure EncoderConfig where
  retinaScaling : ℚ
  width : ℕ
  height : ℕ
  unionSparsity : ℚ
  fingerprintType : FingerprintType
  deriving DecidableEq, Repr

/-- Grid size: `self.n = self.width * self.height`. -/
def EncoderConfig.n (cfg : EncoderConfig) : ℕ := cfg.width * cfg.height

/-- External collaborators: the cortipy client calls and the text
preprocessor's tokenizer. A `none` result models the call raising
`UnsuccessfulEncodingError`. -/
structure CioEnv where
  getTextBitmap : String → Option Encoding
  getBitmap : String → Option Encoding
  tokenize : String → List String
  clientTokenize : String → Option (List String)

/-- Method `CioEncoder._setDimensions`: rejects a scaling factor with
`scalingFactor < 0 or scalingFactor > 1`, otherwise sets
`width = height = int(retinaDim * scalingFactor)` and `n = width * height`. -/
def setDimensions (retinaDim : ℕ) (scalingFactor : ℚ) :
    Except PyError (ℚ × ℕ × ℕ × ℕ) :=
  if scalingFactor < 0 ∨ scalingFactor > 1 then
    Except.error PyError.valueError
  else
    let w : ℕ := (scalingFactor * retinaDim).floor.toNat
    Except.ok (scalingFactor, w, w, w * w)

/-! ## Window builder (`CioEncoder.getWindowEncoding`) -/

/-- Sparsity `len(bitmap) / float(self.n)` of a (duplicate-free) bit-position
set over a grid of `n` bits. -/
def bitmapSparsity (n : ℕ) (W : Finset ℕ) : ℚ := (W.card : ℚ) / (n : ℚ)

/-- Model of `numpy.union1d`: deduplicated union of two bit-position sets. -/
def union1d (a b : Finset ℕ) : Finset ℕ := a ∪ b

/-- The backward walk of `getWindowEncoding` for one token index.
`windowLoop n s bitmaps W fuel` visits indices `fuel - 1, fuel - 2, …, 0`
(so it is started with `fuel = i` and `W = bitmaps[i]`); at each visited
index `j` it stops (returning the current window and `j`, Python's loop
variable after `break`) when
`windowSparsity + nextSparsity > s`, and otherwise merges `bitmaps[j]` via
`numpy.union1d` and continues.  If the walk never stops, the returned index
is `0`, matching the initial `j = 0` / the last loop value. -/
def windowLoop (n : ℕ) (s : ℚ) (bitmaps : List (Finset ℕ)) :
    Finset ℕ → ℕ → Finset ℕ × ℕ
  | W, 0 => (W, 0)
  | W, j + 1 =>
    let B := bitmaps.getD j ∅
    if bitmapSparsity n W + bitmapSparsity n B > s then (W, j)
    else windowLoop n s bitmaps (union1d W B) j

/-- The window bitmap computed for token index `i`: the walk started at
`bitmaps[i]`. -/
def windowAt (n : ℕ) (s : ℚ) (bitmaps : List (Finset ℕ)) (i : ℕ) :
    Finset ℕ × ℕ :=
  windowLoop n s bitmaps (bitmaps.getD i ∅) i

/-- One entry of the list returned by `getWindowEncoding`:
`{"text": tokens[j:i+1], "sparsity": …, "bitmap": …}`.  `span = (j, i)` keeps
the slice bounds explicitly (the slice is inclusive of both). -/
structure WindowEncoding where
  text : List String
  span : ℕ × ℕ
  sparsity : ℚ
  bitmap : Finset ℕ
  deriving DecidableEq

/-- The body of `getWindowEncoding`'s outer loop for one index `i`: run the
backward walk, then emit `{"text": tokens[j:i+1], "sparsity": …, "bitmap": …}`
only when the final window sparsity exceeds `minSparsity` (with `j` the
walk's final loop variable). -/
def windowEntry (n : ℕ) (s : ℚ) (tokens : List String)
    (bitmaps : List (Finset ℕ)) (minSparsity : ℚ) (i : ℕ) :
    Option WindowEncoding :=
  let r := windowAt n s bitmaps i
  let sparsity := bitmapSparsity n r.1
  if sparsity > minSparsity then
    some { text := (tokens.drop r.2).take (i + 1 - r.2)
           span := (r.2, i)
           sparsity := sparsity
           bitmap := r.1 }
  else none

/-- Method `CioEncoder.getWindowEncoding`: word-level bitmaps for each token, then
for each index `i` the backward walk `windowLoop`; a window is emitted only
when its final sparsity exceeds `minSparsity`. -/
def getWindowEncoding (n : ℕ) (s : ℚ) (wordBitmap : String → Finset ℕ)
    (tokens : List String) (minSparsity : ℚ) : List WindowEncoding :=
  let bitmaps := tokens.map wordBitmap
  (List.range tokens.length).filterMap
    (windowEntry n s tokens bitmaps minSparsity)

/-- The union the walk has built after accepting `k` predecessors of index
`i`: `mergeRun bitmaps W i k = W ∪ bitmaps[i-1] ∪ … ∪ bitmaps[i-k]`, merged
in the walk's backward order. -/
def mergeRun (bitmaps : List (Finset ℕ)) : Finset ℕ → ℕ → ℕ → Finset ℕ
  | W, _, 0 => W
  | W, i, k + 1 => mergeRun bitmaps (union1d W (bitmaps.getD (i - 1) ∅)) (i - 1) k

/-- The stopping test seen by the walk at its `t`-th visited index
(`j = i - 1 - t`), with the window as built so far: the sum of the current
window sparsity and the next bitmap's own sparsity stays within `s`. -/
def acceptCond (n : ℕ) (s : ℚ) (bitmaps : List (Finset ℕ)) (W : Finset ℕ)
    (i t : ℕ) : Prop :=
  bitmapSparsity n (mergeRun bitmaps W i t) +
    bitmapSparsity n (bitmaps.getD (i - 1 - t) ∅) ≤ s

instance (n : ℕ) (s : ℚ) (bitmaps : List (Finset ℕ)) (W : Finset ℕ)
    (i t : ℕ) : Decidable (acceptCond n s bitmaps W i t) := by
  unfold acceptCond; infer_instance

/-! ## Union aggregation (`CioEncoder.getUnionEncoding`) -/

/-- The occurrence count of position `p` across the encoded token bitmaps:
what `Counter(); counts.update(bitmap)` accumulates. -/
def posFreq (tokenBitmaps : List (List ℕ)) (p : ℕ) : ℕ :=
  (tokenBitmaps.map (fun b => b.count p)).sum

/-- Ranking used to pick union positions: descending occurrence frequency,
ties broken by ascending position index. -/
def rankLE (tokenBitmaps : List (List ℕ)) (a b : ℕ) : Prop :=
  posFreq tokenBitmaps b < posFreq tokenBitmaps a ∨
    (posFreq tokenBitmaps a = posFreq tokenBitmaps b ∧ a ≤ b)

instance (tokenBitmaps : List (List ℕ)) (a b : ℕ) :
    Decidable (rankLE tokenBitmaps a b) := by
  unfold rankLE; infer_instance

instance (tokenBitmaps : List (List ℕ)) : IsTotal ℕ (rankLE tokenBitmaps) where
  total a b := by
    unfold rankLE
    rcases lt_trichotomy (posFreq tokenBitmaps a) (posFreq tokenBitmaps b) with h | h | h
    · exact Or.inr (Or.inl h)
    · rcases le_total a b with hab | hab
      · exact Or.inl (Or.inr ⟨h, hab⟩)
      · exact Or.inr (Or.inr ⟨h.symm, hab⟩)
    · exact Or.inl (Or.inl h)

instance (tokenBitmaps : List (List ℕ)) : IsTrans ℕ (rankLE tokenBitmaps) where
  trans a b c hab hbc := by
    unfold rankLE at *
    rcases hab with h1 | ⟨h1, h1'⟩ <;> rcases hbc with h2 | ⟨h2, h2'⟩
    · exact Or.inl (h2.trans h1)
    · exact Or.inl (h2 ▸ h1)
    · exact Or.inl (h1 ▸ h2)
    · exact Or.inr ⟨h1.trans h2, h1'.trans h2'⟩

/-- Modelled from the spec: `LanguageEncoder.sparseUnion` (the base-class
method `getUnionEncoding` calls on its `Counter`) is not under `src/`.
Per §4.1, it selects positions ranked by descending frequency with ties
broken by ascending position index, truncated to at most
`⌊maxSparsity · n⌋` positions. -/
def sparseUnion (maxSparsity : ℚ) (n : ℕ) (tokenBitmaps : List (List ℕ)) :
    List ℕ :=
  let support := tokenBitmaps.flatten.dedup
  (support.insertionSort (rankLE tokenBitmaps)).take
    ((maxSparsity * (n : ℚ)).floor.toNat)

/-- The position list stored in the union encoding:
`sorted(self.sparseUnion(counts))`. -/
def unionPositions (maxSparsity : ℚ) (n : ℕ)
    (tokenBitmaps : List (List ℕ)) : List ℕ :=
  (sparseUnion maxSparsity n tokenBitmaps).insertionSort (· ≤ ·)

/-- Method `CioEncoder._getWordBitmap`: the position list of the client's bitmap
for one term (`none` when the client call raised). -/
def getWordBitmap (env : CioEnv) (term : String) : Option (List ℕ) :=
  (env.getBitmap term).map (fun e => e.positions)

/-- Method `CioEncoder.getUnionEncoding`: tokenize, encode every token, count the ON
bits, sparsify the union, and populate the encoding dict.  `none` models an
`UnsuccessfulEncodingError` escaping from a token encoding. -/
def getUnionEncoding (cfg : EncoderConfig) (env : CioEnv) (text : String) :
    Option Encoding := do
  let tokenBitmaps ← (env.tokenize text).mapM (getWordBitmap env)
  let positions := unionPositions cfg.unionSparsity cfg.n tokenBitmaps
  pure { text := text
         sparsity := (positions.length : ℚ) / (cfg.n : ℚ)
         df := 0
         height := cfg.height
         width := cfg.width
         score := 0
         positions := positions
         pos_types := [] }

/-! ## Encoding finalization and the `encode` fallback chain -/

/-- Modelled from the spec: `LanguageEncoder.scaleEncoding` is not under
`src/`.  Per §4.3, each position is decoded to `(row, col)` in the source
grid, both coordinates are scaled by `s` and floored, clipped to the target
grid, and re-encoded; the result is deduplicated and sorted. -/
def scaleEncoding (s : ℚ) (srcWidth tgtWidth tgtHeight : ℕ)
    (positions : List ℕ) : List ℕ :=
  ((positions.map (fun p =>
      let row := min ((s * ((p / srcWidth : ℕ) : ℚ)).floor.toNat) (tgtHeight - 1)
      let col := min ((s * ((p % srcWidth : ℕ) : ℚ)).floor.toNat) (tgtWidth - 1)
      row * tgtWidth + col)).dedup).insertionSort (· ≤ ·)

/-- Method `CioEncoder.finishEncoding` on a real (non-`None`) encoding dict: when
`retinaScaling ≠ 1` rescale the fingerprint and overwrite `width`/`height`
with the encoder's, then always recompute
`sparsity = len(positions) / (width * height)` from the dict's fields. -/
def finishEncoding (cfg : EncoderConfig) (e : Encoding) : Encoding :=
  let e1 :=
    if cfg.retinaScaling ≠ 1 then
      { e with positions :=
                 scaleEncoding cfg.retinaScaling e.width cfg.width cfg.height
                   e.positions
               width := cfg.width
               height := cfg.height }
    else e
  { e1 with sparsity := (e1.positions.length : ℚ) / ((e1.width * e1.height : ℕ) : ℚ) }

/-- Wrapper for `finishEncoding` as `encode` actually calls it: the argument may be the
Python value `None` (when the fallback chain exhausted).  Subscripting
`None` in `encoding["fingerprint"]` / `encoding["sparsity"]` raises a
`TypeError`. -/
def finishEncodingOpt (cfg : EncoderConfig) :
    Option Encoding → Except PyError Encoding
  | none => Except.error PyError.typeError
  | some e => Except.ok (finishEncoding cfg e)

/-- Python `min(encodings, key=lambda x: x["df"])`: first element of minimal
`df`; raises `ValueError` on an empty list. -/
def minByDf : List Encoding → Except PyError Encoding
  | [] => Except.error PyError.valueError
  | e :: es =>
    Except.ok (es.foldl (fun best x => if x.df < best.df then x else best) e)

/-- Method `CioEncoder._subEncoding`: substitute encoding for unencodable text.
`Except.ok none` models returning the Python value `None` (the
`UnsuccessfulEncodingError` was caught); an unknown `method`, or `min` over
an empty list in the `"df"` branch, raises `ValueError` outside the
`try`/`except`. -/
def subEncoding (cfg : EncoderConfig) (env : CioEnv) (text : String)
    (method : String) : Except PyError (Option Encoding) :=
  if method = "df" then
    match (env.clientTokenize text).bind (fun ts =>
        (ts.flatMap (fun t => t.splitOn ",")).mapM env.getBitmap) with
    | none => Except.ok none
    | some encodings => (minByDf encodings).map some
  else if method = "keyword" then
    Except.ok (getUnionEncoding cfg env text)
  else Except.error PyError.valueError

/-- Method `CioEncoder.encode`: dispatch on the configured fingerprint type; on
`UnsuccessfulEncodingError`, substitute `_subEncoding(text)` (keyword
method); either way the result — possibly `None` — is passed to
`finishEncoding`. -/
def encode (cfg : EncoderConfig) (env : CioEnv) (text : String) :
    Except PyError Encoding :=
  let primary : Option Encoding :=
    match cfg.fingerprintType with
    | FingerprintType.document => env.getTextBitmap text
    | FingerprintType.word => getUnionEncoding cfg env text
    | FingerprintType.other => env.getBitmap text
  match primary with
  | some e => finishEncodingOpt cfg (some e)
  | none =>
    match subEncoding cfg env text "keyword" with
    | Except.error err => Except.error err
    | Except.ok sub => finishEncodingOpt cfg sub

/-! ## Comparator type check (`CioEncoder.compare`) -/

/-- A fragment of Python's value universe, rich enough for the
`isinstance(bitmap1 and bitmap2, list)` check. -/
inductive PyVal where
  | list (xs : List ℤ)
  | tuple (xs : List ℤ)
  | int (n : ℤ)
  | str (s : String)
  | none
  deriving DecidableEq, Repr

/-- Python truthiness of the modelled values. -/
def PyVal.truthy : PyVal → Bool
  | PyVal.list xs => !xs.isEmpty
  | PyVal.tuple xs => !xs.isEmpty
  | PyVal.int n => n ≠ 0
  | PyVal.str s => !(s = "")
  | PyVal.none => false

/-- Python `isinstance(v, list)`. -/
def PyVal.isList : PyVal → Bool
  | PyVal.list _ => true
  | _ => false

/-- Python's short-circuit `a and b`: `a` when `a` is falsy, else `b`. -/
def pyAnd (a b : PyVal) : PyVal := if a.truthy then b else a

namespace CioEncoder

/-- Method `CioEncoder.compare`: raises `TypeError` when
`isinstance(bitmap1 and bitmap2, list)` fails, otherwise delegates the two
bitmaps to the client. -/
def compare {α : Type} (clientCompare : PyVal → PyVal → α)
    (bitmap1 bitmap2 : PyVal) : Except PyError α :=
  if !(pyAnd bitmap1 bitmap2).isList then Except.error PyError.typeError
  else Except.ok (clientCompare bitmap1 bitmap2)

end CioEncoder

/-- Evaluation bridge: `Rat.floor` (what `int(...)` computes on our nonnegative rationals)
agrees with the floor of the archimedean order structure on `ℚ`. -/
lemma ratFloor_eq_intFloor (q : ℚ) : q.floor = ⌊q⌋ := rfl

/-! ## General lemmas about the window walk -/

lemma bitmapSparsity_mono (n : ℕ) {A B : Finset ℕ} (h : A ⊆ B) :
    bitmapSparsity n A ≤ bitmapSparsity n B := by
  unfold bitmapSparsity
  rcases Nat.eq_zero_or_pos n with hn | hn
  · simp [hn]
  · have hc : (0 : ℚ) < (n : ℚ) := by exact_mod_cast hn
    have hcard : (A.card : ℚ) ≤ (B.card : ℚ) := by
      exact_mod_cast Finset.card_le_card h
    exact div_le_div_of_nonneg_right hcard hc.le

lemma subset_mergeRun (bitmaps : List (Finset ℕ)) (W : Finset ℕ) (i k : ℕ) :
    W ⊆ mergeRun bitmaps W i k := by
  induction k generalizing W i with
  | zero => exact Finset.Subset.refl W
  | succ k ih =>
    exact Finset.Subset.trans Finset.subset_union_left
      (ih (union1d W (bitmaps.getD (i - 1) ∅)) (i - 1))

lemma mergeRun_subset_succ (bitmaps : List (Finset ℕ)) (W : Finset ℕ)
    (i k : ℕ) : mergeRun bitmaps W i k ⊆ mergeRun bitmaps W i (k + 1) := by
  induction k generalizing W i with
  | zero => exact Finset.subset_union_left
  | succ k ih =>
    show mergeRun bitmaps (union1d W (bitmaps.getD (i - 1) ∅)) (i - 1) k ⊆
      mergeRun bitmaps (union1d W (bitmaps.getD (i - 1) ∅)) (i - 1) (k + 1)
    exact ih (union1d W (bitmaps.getD (i - 1) ∅)) (i - 1)

lemma windowLoop_succ (n : ℕ) (s : ℚ) (bitmaps : List (Finset ℕ))
    (W : Finset ℕ) (m : ℕ) :
    windowLoop n s bitmaps W (m + 1) =
      if bitmapSparsity n W + bitmapSparsity n (bitmaps.getD m ∅) > s then (W, m)
      else windowLoop n s bitmaps (union1d W (bitmaps.getD m ∅)) m := rfl

lemma acceptCond_zero (n : ℕ) (s : ℚ) (bitmaps : List (Finset ℕ))
    (W : Finset ℕ) (i : ℕ) :
    acceptCond n s bitmaps W i 0 ↔
      bitmapSparsity n W + bitmapSparsity n (bitmaps.getD (i - 1) ∅) ≤ s :=
  Iff.rfl

lemma acceptCond_succ (n : ℕ) (s : ℚ) (bitmaps : List (Finset ℕ))
    (W : Finset ℕ) (m t : ℕ) :
    acceptCond n s bitmaps W (m + 1) (t + 1) ↔
      acceptCond n s bitmaps (union1d W (bitmaps.getD m ∅)) m t := by
  unfold acceptCond
  have h1 : mergeRun bitmaps W (m + 1) (t + 1) =
      mergeRun bitmaps (union1d W (bitmaps.getD m ∅)) m t := rfl
  have h2 : m + 1 - 1 - (t + 1) = m - 1 - t := by omega
  rw [h1, h2]

/-- Full characterization of the backward walk, generalized over the start
window: the walk accepts some count `k` of predecessors, its result is the
`k`-fold merge, its final loop index is `i - 1 - k` (or `0` when every
predecessor was merged), every accepted step passed the stopping test with
the window as built at that moment, and — when the walk stopped early —
the test failed at the very next index. -/
lemma windowLoop_spec (n : ℕ) (s : ℚ) (bitmaps : List (Finset ℕ))
    (W : Finset ℕ) (i : ℕ) :
    ∃ k, k ≤ i ∧
      (windowLoop n s bitmaps W i).1 = mergeRun bitmaps W i k ∧
      (windowLoop n s bitmaps W i).2 = (if k = i then 0 else i - 1 - k) ∧
      (∀ t, t < k → acceptCond n s bitmaps W i t) ∧
      (k < i → ¬ acceptCond n s bitmaps W i k) := by
  induction i generalizing W with
  | zero =>
    exact ⟨0, Nat.le_refl 0, rfl, by simp [windowLoop], fun t ht => absurd ht (by omega),
      fun h => absurd h (by omega)⟩
  | succ m ih =>
    by_cases hstop :
        bitmapSparsity n W + bitmapSparsity n (bitmaps.getD m ∅) > s
    · refine ⟨0, Nat.zero_le _, ?_, ?_, fun t ht => absurd ht (by omega), ?_⟩
      · rw [windowLoop_succ, if_pos hstop]
        rfl
      · rw [windowLoop_succ, if_pos hstop]
        simp
      · intro _
        rw [acceptCond_zero]
        simpa using hstop
    · obtain ⟨k', hk'le, h1, h2, h3, h4⟩ := ih (union1d W (bitmaps.getD m ∅))
      have hloop : windowLoop n s bitmaps W (m + 1) =
          windowLoop n s bitmaps (union1d W (bitmaps.getD m ∅)) m := by
        rw [windowLoop_succ, if_neg hstop]
      refine ⟨k' + 1, by omega, ?_, ?_, ?_, ?_⟩
      · rw [hloop, h1]
        rfl
      · rw [hloop, h2]
        by_cases hk : k' = m
        · simp [hk]
        · have hne : ¬ (k' + 1 = m + 1) := by omega
          rw [if_neg hk, if_neg hne]
          omega
      · intro t ht
        match t with
        | 0 =>
          rw [acceptCond_zero]
          simpa using not_lt.mp hstop
        | t + 1 =>
          rw [acceptCond_succ]
          exact h3 t (by omega)
      · intro hlt
        rw [acceptCond_succ]
        exact h4 (by omega)

/-! ## Claim theorems -/

/-- C3: the backward walk of the window builder visits `j = i−1, i−2, …` and
merges `bitmaps[j]` exactly while, at the moment `j` is visited, the current
window sparsity plus the sparsity of `bitmaps[j]` alone stays within the
maximum union sparsity; it stops at the first `j` whose sum would exceed it,
without merging that bitmap, and visits no earlier index. -/
theorem windowWalk_merges_while_sum_within_budget (n : ℕ) (s : ℚ)
    (bitmaps : List (Finset ℕ)) (i : ℕ) :
    ∃ k, k ≤ i ∧
      (windowAt n s bitmaps i).1 = mergeRun bitmaps (bitmaps.getD i ∅) i k ∧
      (∀ t, t < k → acceptCond n s bitmaps (bitmaps.getD i ∅) i t) ∧
      (k < i → ¬ acceptCond n s bitmaps (bitmaps.getD i ∅) i k) := by
  obtain ⟨k, h1, h2, _, h4, h5⟩ :=
    windowLoop_spec n s bitmaps (bitmaps.getD i ∅) i
  exact ⟨k, h1, h2, h4, h5⟩

/-- C9: merging a bitmap into the window union never removes positions, so
the window cardinality — and hence its sparsity — is non-decreasing in the
number of predecessor bitmaps merged by the walk. -/
theorem windowUnion_sparsity_nondecreasing (n : ℕ) (W B : Finset ℕ)
    (bitmaps : List (Finset ℕ)) (W0 : Finset ℕ) (i k : ℕ) :
    W.card ≤ (union1d W B).card ∧
    bitmapSparsity n W ≤ bitmapSparsity n (union1d W B) ∧
    bitmapSparsity n (mergeRun bitmaps W0 i k) ≤
      bitmapSparsity n (mergeRun bitmaps W0 i (k + 1)) :=
  ⟨Finset.card_le_card Finset.subset_union_left,
   bitmapSparsity_mono n Finset.subset_union_left,
   bitmapSparsity_mono n (mergeRun_subset_succ bitmaps W0 i k)⟩

/-- C8: for a non-empty token sequence, the window the walk computes for
token index 0 is exactly `bitmap[0]` — no predecessor is merged and no
position is added or removed. -/
theorem window_index_zero_is_bitmap_zero (n : ℕ) (s : ℚ)
    (wordBitmap : String → Finset ℕ) (tokens : List String)
    (h : tokens ≠ []) :
    windowAt n s (tokens.map wordBitmap) 0 =
      (wordBitmap (tokens.headD ""), 0) := by
  cases tokens with
  | nil => exact absurd rfl h
  | cons t ts => rfl

/-- Witness for C8 at `tokens = ["x"]` with a constant word bitmap. -/
theorem window_index_zero_is_bitmap_zero_witness :
    (["x"] : List String) ≠ [] ∧
    windowAt 100 (1 / 20)
        ((["x"] : List String).map (fun _ => ({1, 2} : Finset ℕ))) 0 =
      (({1, 2} : Finset ℕ), 0) :=
  ⟨by simp,
   window_index_zero_is_bitmap_zero 100 (1 / 20) (fun _ => {1, 2}) ["x"]
     (by simp)⟩

/-- C5 (amended): `_setDimensions` raises `ValueError` exactly when the
scale factor is negative or greater than 1 — i.e. it accepts the whole
closed interval `[0, 1]`, including `s = 0`. -/
theorem setDimensions_error_iff (d : ℕ) (s : ℚ) :
    setDimensions d s = Except.error PyError.valueError ↔ (s < 0 ∨ 1 < s) := by
  unfold setDimensions
  by_cases h : s < 0 ∨ s > 1
  · rw [if_pos h]
    simpa using h
  · rw [if_neg h]
    constructor
    · intro hc
      exact absurd hc (by simp)
    · intro hc
      exact absurd hc h

/-- C5 counterexample: the scale factor 0 lies outside `(0, 1]`, yet
`_setDimensions` accepts it (producing a 0×0 grid) instead of raising. -/
theorem setDimensions_accepts_zero :
    setDimensions 128 0 = Except.ok (0, 0, 0, 0) ∧
    ¬(0 < (0 : ℚ) ∧ (0 : ℚ) ≤ 1) := by
  constructor
  · norm_num [setDimensions, ratFloor_eq_intFloor]
  · norm_num

namespace CioEncoder

/-- C10: `compare` raises its `TypeError` exactly when the value selected by
the Python expression `bitmap1 and bitmap2` is not a list; consequently an
empty-list first argument is never rejected whatever the second argument is,
and a truthy non-list first argument paired with a list passes the check. -/
theorem compare_checks_only_selected_value {α : Type}
    (clientCompare : PyVal → PyVal → α) (b1 b2 : PyVal) :
    (compare clientCompare b1 b2 = Except.error PyError.typeError ↔
      (pyAnd b1 b2).isList = false) ∧
    compare clientCompare (PyVal.list []) b2 =
      Except.ok (clientCompare (PyVal.list []) b2) ∧
    compare clientCompare (PyVal.tuple [1, 2]) (PyVal.list [3]) =
      Except.ok (clientCompare (PyVal.tuple [1, 2]) (PyVal.list [3])) := by
  refine ⟨?_, rfl, rfl⟩
  unfold compare
  cases h : (pyAnd b1 b2).isList <;> simp [h]

/-- C6 counterexample: a tuple is not a list, yet
`compare((1, 2), [3])` passes the type check and is delegated to the
client — the first argument is never inspected when it is truthy. -/
theorem compare_misses_nonlist_first_argument :
    compare (fun a b => (a, b)) (PyVal.tuple [1, 2]) (PyVal.list [3]) =
      Except.ok (PyVal.tuple [1, 2], PyVal.list [3]) ∧
    (PyVal.tuple [1, 2]).isList = false :=
  ⟨rfl, rfl⟩

/-- C6 (amended): `compare` raises `TypeError` exactly when the single value
`bitmap1 if bitmap1 is falsy else bitmap2` is not a list; it does not check
both arguments. -/
theorem compare_error_iff_selected_value_not_list {α : Type}
    (clientCompare : PyVal → PyVal → α) (b1 b2 : PyVal) :
    compare clientCompare b1 b2 = Except.error PyError.typeError ↔
      (if b1.truthy then b2 else b1).isList = false := by
  unfold compare pyAnd
  cases h : (if b1.truthy then b2 else b1).isList <;> simp [h]

end CioEncoder

/-- C7: with scale factor 1, `finishEncoding` leaves the fingerprint
positions and every other field of the record unchanged and only recomputes
`sparsity = |positions| / (width·height)` from the record's own grid. -/
theorem finishEncoding_identity_at_scale_one (cfg : EncoderConfig)
    (e : Encoding) (h : cfg.retinaScaling = 1) :
    finishEncoding cfg e =
      { e with sparsity :=
          (e.positions.length : ℚ) / ((e.width * e.height : ℕ) : ℚ) } := by
  unfold finishEncoding
  simp [h]

/-- Witness for C7 at a concrete configuration and record. -/
theorem finishEncoding_identity_at_scale_one_witness :
    ({ retinaScaling := 1, width := 128, height := 128, unionSparsity := 1/5,
       fingerprintType := FingerprintType.document } :
        EncoderConfig).retinaScaling = 1 ∧
    finishEncoding
        { retinaScaling := 1, width := 128, height := 128,
          unionSparsity := 1/5, fingerprintType := FingerprintType.document }
        { text := "t", sparsity := 0, df := 0, height := 128, width := 128,
          score := 0, positions := [0, 5], pos_types := [] } =
      { text := "t",
        sparsity := ((([0, 5] : List ℕ).length : ℚ) / ((128 * 128 : ℕ) : ℚ)),
        df := 0, height := 128, width := 128, score := 0, positions := [0, 5],
        pos_types := [] } :=
  ⟨rfl, finishEncoding_identity_at_scale_one _ _ rfl⟩

/-- C1 (evaluation at the failing input): with a client that raises
`UnsuccessfulEncodingError` for the whole document and for every token, the
substitute `_subEncoding` catches the error and returns the Python value
`None` — but `encode` then hands `None` to `finishEncoding`, which
subscripts it, so `encode` raises a `TypeError` instead of returning the
absent encoding. -/
theorem encode_double_failure_raises :
    subEncoding
        { retinaScaling := 1, width := 128, height := 128,
          unionSparsity := 1/5, fingerprintType := FingerprintType.document }
        { getTextBitmap := fun _ => none, getBitmap := fun _ => none,
          tokenize := fun _ => ["a"], clientTokenize := fun _ => none }
        "t" "keyword" = Except.ok none ∧
    encode
        { retinaScaling := 1, width := 128, height := 128,
          unionSparsity := 1/5, fingerprintType := FingerprintType.document }
        { getTextBitmap := fun _ => none, getBitmap := fun _ => none,
          tokenize := fun _ => ["a"], clientTokenize := fun _ => none }
        "t" =
      Except.error PyError.typeError :=
  ⟨rfl, rfl⟩

/-- C4: the union aggregation keeps at most `⌊maxSparsity·n⌋` positions; it
selects exactly a prefix of the support ranked by descending occurrence
frequency with ties broken by ascending position index, and the list it
returns is sorted ascending. -/
theorem unionPositions_bounded_ranked_sorted (maxSparsity : ℚ) (n : ℕ)
    (tokenBitmaps : List (List ℕ)) :
    (unionPositions maxSparsity n tokenBitmaps).length ≤
      (maxSparsity * (n : ℚ)).floor.toNat ∧
    (unionPositions maxSparsity n tokenBitmaps).Sorted (· ≤ ·) ∧
    (unionPositions maxSparsity n tokenBitmaps).Perm
      ((tokenBitmaps.flatten.dedup.insertionSort (rankLE tokenBitmaps)).take
        (maxSparsity * (n : ℚ)).floor.toNat) := by
  have hperm : (unionPositions maxSparsity n tokenBitmaps).Perm
      (sparseUnion maxSparsity n tokenBitmaps) :=
    List.perm_insertionSort (· ≤ ·) (sparseUnion maxSparsity n tokenBitmaps)
  refine ⟨?_, ?_, hperm⟩
  · rw [hperm.length_eq]
    exact List.length_take_le _ _
  · exact List.sorted_insertionSort (· ≤ ·)
      (sparseUnion maxSparsity n tokenBitmaps)

/-! ## The §8 window example: tokens of bitmap sizes 2, 3, 2 over n = 100 -/

/-- Word bitmaps for the example tokens `["a", "b", "c"]`: sizes 2, 3, 2,
pairwise disjoint. -/
def exampleWordBitmap : String → Finset ℕ := fun t =>
  if t = "a" then {0, 1} else if t = "b" then {2, 3, 4} else {5, 6}

/-- The window encoding the code emits for index 2 of the example. -/
def exampleWindow : WindowEncoding :=
  { text := ["a", "b", "c"], span := (0, 2), sparsity := 1/20,
    bitmap := {2, 3, 4, 5, 6} }

/-- Full evaluation of `getWindowEncoding` on the example: with
`maxSparsity = 1/20` (5 ON bits over n = 100) the walk for index 2 merges
token 1 and stops at token 0 with the loop variable `j = 0`, and the emitted
entry is `tokens[0:3]` with span `(0, 2)` — the excluded token 0 is part of
the emitted slice even though its bitmap is not in the window union. -/
lemma getWindowEncoding_example_eval :
    getWindowEncoding 100 (1/20) exampleWordBitmap ["a", "b", "c"] 0 =
      [{ text := ["a"], span := (0, 0), sparsity := 1/50, bitmap := {0, 1} },
       { text := ["a", "b"], span := (0, 1), sparsity := 1/20,
         bitmap := {0, 1, 2, 3, 4} },
       exampleWindow] := by
  have hb : (["a", "b", "c"] : List String).map exampleWordBitmap =
      [{0, 1}, {2, 3, 4}, {5, 6}] := by
    simp [exampleWordBitmap]
  have h0 : windowAt 100 (1/20) [{0, 1}, {2, 3, 4}, {5, 6}] 0 = ({0, 1}, 0) := rfl
  have h1 : windowAt 100 (1/20) [{0, 1}, {2, 3, 4}, {5, 6}] 1 =
      ({0, 1, 2, 3, 4}, 0) := by
    simp [windowAt, windowLoop, bitmapSparsity, union1d]
    norm_num
    decide
  have h2 : windowAt 100 (1/20) [{0, 1}, {2, 3, 4}, {5, 6}] 2 =
      ({2, 3, 4, 5, 6}, 0) := by
    simp [windowAt, windowLoop, bitmapSparsity, union1d]
    norm_num
    decide
  have e0 : bitmapSparsity 100 ({0, 1} : Finset ℕ) = 1/50 := by
    simp [bitmapSparsity]
    norm_num
  have e1 : bitmapSparsity 100 ({0, 1, 2, 3, 4} : Finset ℕ) = 1/20 := by
    simp [bitmapSparsity]
    norm_num
  have e2 : bitmapSparsity 100 ({2, 3, 4, 5, 6} : Finset ℕ) = 1/20 := by
    simp [bitmapSparsity]
    norm_num
  have hw0 : windowEntry 100 (1/20) ["a", "b", "c"]
      [{0, 1}, {2, 3, 4}, {5, 6}] 0 0 =
      some { text := ["a"], span := (0, 0), sparsity := 1/50,
             bitmap := {0, 1} } := by
    unfold windowEntry
    rw [h0]
    show (if bitmapSparsity 100 ({0, 1} : Finset ℕ) > (0:ℚ) then
        some ({ text := ((["a", "b", "c"] : List String).drop 0).take (0 + 1 - 0),
                span := ((0:ℕ), (0:ℕ)),
                sparsity := bitmapSparsity 100 ({0, 1} : Finset ℕ),
                bitmap := ({0, 1} : Finset ℕ) } : WindowEncoding)
      else none) =
      some { text := ["a"], span := (0, 0), sparsity := 1/50, bitmap := {0, 1} }
    rw [e0, if_pos (show (1:ℚ)/50 > 0 by norm_num)]
    rfl
  have hw1 : windowEntry 100 (1/20) ["a", "b", "c"]
      [{0, 1}, {2, 3, 4}, {5, 6}] 0 1 =
      some { text := ["a", "b"], span := (0, 1), sparsity := 1/20,
             bitmap := {0, 1, 2, 3, 4} } := by
    unfold windowEntry
    rw [h1]
    show (if bitmapSparsity 100 ({0, 1, 2, 3, 4} : Finset ℕ) > (0:ℚ) then
        some ({ text := ((["a", "b", "c"] : List String).drop 0).take (1 + 1 - 0),
                span := ((0:ℕ), (1:ℕ)),
                sparsity := bitmapSparsity 100 ({0, 1, 2, 3, 4} : Finset ℕ),
                bitmap := ({0, 1, 2, 3, 4} : Finset ℕ) } : WindowEncoding)
      else none) =
      some { text := ["a", "b"], span := (0, 1), sparsity := 1/20,
             bitmap := {0, 1, 2, 3, 4} }
    rw [e1, if_pos (show (1:ℚ)/20 > 0 by norm_num)]
    rfl
  have hw2 : windowEntry 100 (1/20) ["a", "b", "c"]
      [{0, 1}, {2, 3, 4}, {5, 6}] 0 2 = some exampleWindow := by
    unfold windowEntry
    rw [h2]
    show (if bitmapSparsity 100 ({2, 3, 4, 5, 6} : Finset ℕ) > (0:ℚ) then
        some ({ text := ((["a", "b", "c"] : List String).drop 0).take (2 + 1 - 0),
                span := ((0:ℕ), (2:ℕ)),
                sparsity := bitmapSparsity 100 ({2, 3, 4, 5, 6} : Finset ℕ),
                bitmap := ({2, 3, 4, 5, 6} : Finset ℕ) } : WindowEncoding)
      else none) = some exampleWindow
    rw [e2, if_pos (show (1:ℚ)/20 > 0 by norm_num)]
    rfl
  have hmain : getWindowEncoding 100 (1/20) exampleWordBitmap ["a", "b", "c"] 0 =
      (List.range 3).filterMap
        (windowEntry 100 (1/20) ["a", "b", "c"] [{0, 1}, {2, 3, 4}, {5, 6}] 0) := by
    unfold getWindowEncoding
    rw [hb]
    rfl
  rw [hmain, show List.range 3 = [0, 1, 2] from rfl,
    List.filterMap_cons_some hw0, List.filterMap_cons_some hw1,
    List.filterMap_cons_some hw2, List.filterMap_nil]

/-- C2 counterexample: in the §8 example the walk for index 2 merges token 1
and excludes token 0, yet the emitted entry's span is `(0, 2)` — the slice
`tokens[0:3]` — and not `[1, 2]` as the claim states; its window bitmap
`{2, 3, 4, 5, 6}` indeed contains no bit of token 0's bitmap `{0, 1}`. -/
theorem windowSpan_includes_excluded_token :
    getWindowEncoding 100 (1/20) exampleWordBitmap ["a", "b", "c"] 0 =
      [{ text := ["a"], span := (0, 0), sparsity := 1/50, bitmap := {0, 1} },
       { text := ["a", "b"], span := (0, 1), sparsity := 1/20,
         bitmap := {0, 1, 2, 3, 4} },
       exampleWindow] ∧
    exampleWindow.span ≠ (1, 2) ∧
    exampleWindow.text ≠ ["b", "c"] ∧
    (0 ∉ exampleWindow.bitmap ∧ 1 ∉ exampleWindow.bitmap) :=
  ⟨getWindowEncoding_example_eval, by decide, by decide, by decide, by decide⟩

/-- C2 (amended): every emitted `WindowEncoding` carries
`tokenSpan = (j, i)` where `j` is the walk's final loop variable — the first
index *excluded* by the stopping test when the walk stops early, `0` when
every predecessor was merged — not the smallest merged index; in the §8
example the entry for index 2 therefore spans `tokens[0..2]`. -/
theorem windowSpan_is_walk_stop_index (n : ℕ) (s minSp : ℚ)
    (wordBitmap : String → Finset ℕ) (tokens : List String)
    (w : WindowEncoding)
    (hw : w ∈ getWindowEncoding n s wordBitmap tokens minSp) :
    w.span.2 < tokens.length ∧
    w.span.1 = (windowAt n s (tokens.map wordBitmap) w.span.2).2 ∧
    w.bitmap = (windowAt n s (tokens.map wordBitmap) w.span.2).1 := by
  rw [getWindowEncoding] at hw
  rw [List.mem_filterMap] at hw
  obtain ⟨i, hi, hsome⟩ := hw
  rw [List.mem_range] at hi
  rw [windowEntry] at hsome
  split at hsome
  · rw [Option.some_inj] at hsome
    subst hsome
    exact ⟨hi, rfl, rfl⟩
  · exact absurd hsome (by simp)

/-- Witness for the amended C2 at the §8 example's index-2 entry. -/
theorem windowSpan_is_walk_stop_index_witness :
    exampleWindow ∈
      getWindowEncoding 100 (1/20) exampleWordBitmap ["a", "b", "c"] 0 ∧
    (exampleWindow.span.2 < (["a", "b", "c"] : List String).length ∧
     exampleWindow.span.1 =
       (windowAt 100 (1/20)
         ((["a", "b", "c"] : List String).map exampleWordBitmap)
         exampleWindow.span.2).2 ∧
     exampleWindow.bitmap =
       (windowAt 100 (1/20)
         ((["a", "b", "c"] : List String).map exampleWordBitmap)
         exampleWindow.span.2).1) :=
  have hm : exampleWindow ∈
      getWindowEncoding 100 (1/20) exampleWordBitmap ["a", "b", "c"] 0 := by
    rw [getWindowEncoding_example_eval]
    exact List.mem_cons_of_mem _ (List.mem_cons_of_mem _ (List.mem_cons_self _ _))
  ⟨hm, windowSpan_is_walk_stop_index 100 (1/20) 0 exampleWordBitmap
    ["a", "b", "c"] exampleWindow hm⟩
